import Mathlib

/-!
Shallow embedding of the CSV-to-MySQL bulk loader (`csvToMysql_gpt4o.py`):
the column-type inference routine `infer_column_types`, its helper
`is_datetime`, and the surrounding main-script control flow (argument
check, table-exists prompt, create phase, index-disable/load/enable loop).

Python strings are embedded as Lean `String`; per-column inference state
(`data_types[i]`, `max_lengths[i]`) as a `ColState`; the CSV input (after
the `csv.reader` layer, which is external) as a header list plus a list of
rows of cell strings.  Fallible code (the uncaught `IndexError` on a row
with more cells than headers) is an `Except`.  Database statements issued
through the cursor are recorded as a trace of `Stmt` values; the database
server itself is an external collaborator.
-/

/-- Python whitespace for `str.strip` and for `\s` in `strptime` format
regexes: space, tab, newline, carriage return, vertical tab, form feed
(ASCII fragment; Unicode whitespace is not modelled). -/
def pyIsSpace (c : Char) : Bool :=
  c = ' ' || c = '\t' || c = '\n' || c = '\r' || c = '\x0b' || c = '\x0c'

/-- Strip Python whitespace from both ends of a character list. -/
def pyStrip (l : List Char) : List Char :=
  ((l.dropWhile pyIsSpace).reverse.dropWhile pyIsSpace).reverse

/-- Numeric value of a list of ASCII digits, most significant first. -/
def digitsVal (l : List Char) : Nat :=
  l.foldl (fun a c => a * 10 + (c.toNat - 48)) 0

/-- A nonempty, all-ASCII-digit character list. -/
def allDigits (l : List Char) : Bool :=
  !l.isEmpty && l.all (fun c => c.isDigit)

/-- Model of Python `int(value)` on a string: optional surrounding
whitespace, one optional sign, then a nonempty digit run.  (Underscore
digit separators and non-ASCII digits are not modelled.)  Returns the
parsed value, `none` on `ValueError`. -/
def pyInt (s : String) : Option Int :=
  match pyStrip s.data with
  | '-' :: r => if allDigits r then some (-(digitsVal r : Int)) else none
  | '+' :: r => if allDigits r then some ((digitsVal r : Int)) else none
  | l => if allDigits l then some ((digitsVal l : Int)) else none

/-- Split a character list around the first character satisfying `p`;
`none` when no character satisfies `p`. -/
def splitFirst (p : Char → Bool) : List Char → Option (List Char × List Char)
  | [] => none
  | c :: r =>
    if p c then some ([], r)
    else
      match splitFirst p r with
      | none => none
      | some (a, b) => some (c :: a, b)

/-- Mantissa of a Python float literal: `D+`, `D+.D*` or `D*.D+`. -/
def mantissaOk (l : List Char) : Bool :=
  match splitFirst (fun c => c = '.') l with
  | none => allDigits l
  | some (a, b) =>
      a.all (fun c => c.isDigit) && b.all (fun c => c.isDigit) &&
      !(a.isEmpty && b.isEmpty)

/-- Exponent of a Python float literal: optional sign then `D+`. -/
def expOk (l : List Char) : Bool :=
  match l with
  | '+' :: r => allDigits r
  | '-' :: r => allDigits r
  | r => allDigits r

/-- Float body after the optional leading sign: mantissa with an optional
`e`/`E` exponent part. -/
def floatAfterSign (l : List Char) : Bool :=
  match splitFirst (fun c => c = 'e' || c = 'E') l with
  | none => mantissaOk l
  | some (m, ex) => mantissaOk m && expOk ex

/-- Model of Python `float(value)` succeeding: optional surrounding
whitespace, optional sign, then `inf`/`infinity`/`nan` (case-insensitive)
or a decimal literal with optional exponent.  Only success is modelled;
the numeric value is never used by the inference code. -/
def pyFloat (s : String) : Bool :=
  let body :=
    match pyStrip s.data with
    | '+' :: r => r
    | '-' :: r => r
    | l => l
  let low := body.map Char.toLower
  low = "inf".data || low = "infinity".data || low = "nan".data ||
    floatAfterSign body

/-- Split a character list on every occurrence of `sep` (like Python
`str.split(sep)` / the pieces between literal separators in a `strptime`
format regex). -/
def splitOnChar (sep : Char) : List Char → List (List Char)
  | [] => [[]]
  | c :: r =>
    let rest := splitOnChar sep r
    if c = sep then [] :: rest
    else
      match rest with
      | [] => [[c]]
      | a :: as => (c :: a) :: as

/-- A `\d{1,2}` component of a `strptime` regex. -/
def upTo2Digits (l : List Char) : Bool :=
  allDigits l && l.length ≤ 2

/-- A `\d\d\d\d` component (`%Y`) of a `strptime` regex. -/
def exactly4Digits (l : List Char) : Bool :=
  allDigits l && l.length = 4

/-- Gregorian leap-year rule, as used by `datetime.datetime`. -/
def isLeap (y : Nat) : Bool :=
  (y % 4 = 0 && y % 100 ≠ 0) || y % 400 = 0

/-- Days in a month, as validated by the `datetime.datetime` constructor. -/
def daysInMonth (y m : Nat) : Nat :=
  if m = 2 then (if isLeap y then 29 else 28)
  else if m = 4 || m = 6 || m = 9 || m = 11 then 30
  else 31

/-- Validity of a year/month/day triple for `datetime.datetime`
(`MINYEAR = 1`, `MAXYEAR = 9999`). -/
def validYMD (y m d : Nat) : Bool :=
  1 ≤ y && y ≤ 9999 && 1 ≤ m && m ≤ 12 && 1 ≤ d && d ≤ daysInMonth y m

/-- Validity of an hour/minute/second triple for `datetime.datetime`. -/
def validHMS (h mi s : Nat) : Bool :=
  h ≤ 23 && mi ≤ 59 && s ≤ 59

/-- Match against `strptime` format `%Y-%m-%d`: four digits, `-`, one or
two digits, `-`, one or two digits, with the resulting date valid. -/
def dateDashOk (l : List Char) : Bool :=
  match splitOnChar '-' l with
  | [y, m, d] =>
      exactly4Digits y && upTo2Digits m && upTo2Digits d &&
      validYMD (digitsVal y) (digitsVal m) (digitsVal d)
  | _ => false

/-- Match against the `%H:%M:%S` part of a `strptime` format. -/
def timeOk (l : List Char) : Bool :=
  match splitOnChar ':' l with
  | [h, m, s] =>
      upTo2Digits h && upTo2Digits m && upTo2Digits s &&
      validHMS (digitsVal h) (digitsVal m) (digitsVal s)
  | _ => false

/-- Match against format `%Y-%m-%d %H:%M:%S`.  A literal whitespace in a
`strptime` format matches a nonempty run of whitespace (`\s+`). -/
def fmtDateTimeOk (l : List Char) : Bool :=
  let dpart := l.takeWhile (fun c => !pyIsSpace c)
  let rest := l.drop dpart.length
  let ws := rest.takeWhile pyIsSpace
  let tpart := rest.drop ws.length
  dateDashOk dpart && !ws.isEmpty && timeOk tpart

/-- Match against format `%d/%m/%Y`. -/
def dateSlashDMY (l : List Char) : Bool :=
  match splitOnChar '/' l with
  | [d, m, y] =>
      upTo2Digits d && upTo2Digits m && exactly4Digits y &&
      validYMD (digitsVal y) (digitsVal m) (digitsVal d)
  | _ => false

/-- Match against format `%Y/%m/%d`. -/
def dateSlashYMD (l : List Char) : Bool :=
  match splitOnChar '/' l with
  | [y, m, d] =>
      exactly4Digits y && upTo2Digits m && upTo2Digits d &&
      validYMD (digitsVal y) (digitsVal m) (digitsVal d)
  | _ => false

/-- Source `is_datetime(value)`: try the four formats
`%Y-%m-%d %H:%M:%S`, `%Y-%m-%d`, `%d/%m/%Y`, `%Y/%m/%d` in order and
report whether any matches. -/
def is_datetime (value : String) : Bool :=
  fmtDateTimeOk value.data || dateDashOk value.data ||
    dateSlashDMY value.data || dateSlashYMD value.data

/-- Python `' ' in value`: a literal space character occurs in the value. -/
def pySpaceIn (value : String) : Bool :=
  value.data.contains ' '

/-- Python `header.endswith(suf)`. -/
def pyEndswith (s suf : String) : Bool :=
  decide (suf.data <:+ s.data)

/-- The type labels stored in `data_types[i]` (Python string constants). -/
inductive TypeLabel where
  | TINYINT | INT | DOUBLE | VARCHAR | TEXT | DATETIME | DATE
deriving DecidableEq

/-- Render a label back to its Python string constant. -/
def labelStr : TypeLabel → String
  | .TINYINT => "TINYINT"
  | .INT => "INT"
  | .DOUBLE => "DOUBLE"
  | .VARCHAR => "VARCHAR"
  | .TEXT => "TEXT"
  | .DATETIME => "DATETIME"
  | .DATE => "DATE"

/-- Per-column inference state: `data_types[i]` (`none` = Python `None`)
and `max_lengths[i]`. -/
structure ColState where
  dtype : Option TypeLabel
  maxLen : Nat
deriving DecidableEq

/-- The guard `data_types[i] not in ['DOUBLE', 'VARCHAR', 'TEXT',
'DATETIME', 'DATE']` of the integer branch, un-negated. -/
def numericExcluded (d : Option TypeLabel) : Bool :=
  d = some TypeLabel.DOUBLE || d = some TypeLabel.VARCHAR ||
  d = some TypeLabel.TEXT || d = some TypeLabel.DATETIME ||
  d = some TypeLabel.DATE

/-- Body of the per-value loop of `infer_column_types` for one in-range
column: empty values are skipped; an integer updates the label to
`TINYINT`/`INT` unless the label is already in the exclusion list; else a
float sets `DOUBLE` unconditionally; else a date/time format match sets
`DATETIME`/`DATE` by presence of a space; else the value is free text and
updates the running max length and the `VARCHAR`/`TEXT` label. -/
def processValue (st : ColState) (value : String) : ColState :=
  if value = "" then st
  else
    match pyInt value with
    | some n =>
        if numericExcluded st.dtype then st
        else { st with dtype := some (if n < 10 then TypeLabel.TINYINT else TypeLabel.INT) }
    | none =>
        if pyFloat value then { st with dtype := some TypeLabel.DOUBLE }
        else if is_datetime value then
          { st with dtype := some (if pySpaceIn value then TypeLabel.DATETIME else TypeLabel.DATE) }
        else
          let ml := max st.maxLen value.length
          { dtype :=
              if st.dtype = some TypeLabel.TEXT then st.dtype
              else some (if ml < 200 then TypeLabel.VARCHAR else TypeLabel.TEXT),
            maxLen := ml }

/-- The `for i, value in enumerate(row)` loop.  A non-empty cell whose
index is out of range for the per-column state lists raises an
`IndexError` that the per-value `try/except ValueError` does not catch;
an empty out-of-range cell is skipped by `if not value: continue` before
any indexing happens. -/
def processCells : List ColState → List String → Nat → Except Unit (List ColState)
  | st, [], _ => .ok st
  | st, v :: rest, i =>
    if v = "" then processCells st rest (i + 1)
    else if h : i < st.length then
      processCells (st.set i (processValue (st.get ⟨i, h⟩) v)) rest (i + 1)
    else .error ()

/-- The row loop of `infer_column_types`: after each processed row the
counter is incremented and the loop breaks once `row_count > 1000`. -/
def processRows : List ColState → List (List String) → Nat → Except Unit (List ColState)
  | st, [], _ => .ok st
  | st, row :: rest, rowCount =>
    match processCells st row 0 with
    | .error e => .error e
    | .ok st2 =>
      if rowCount + 1 > 1000 then .ok st2
      else processRows st2 rest (rowCount + 1)

/-- One CSV input file as seen after the external `csv.reader` layer: the
header row and the data rows, each a list of cell strings. -/
structure CsvFile where
  headers : List String
  rows : List (List String)
deriving DecidableEq

/-- Resolution of the final SQL type string for one column:
`data_types[i] if data_types[i] else 'VARCHAR(255)'`, with the observed
max length appended in parentheses when the label equals `'VARCHAR'`. -/
def renderColType (st : ColState) : String :=
  let colType :=
    match st.dtype with
    | none => "VARCHAR(255)"
    | some t => labelStr t
  if colType = "VARCHAR" then colType ++ ("(" ++ (toString st.maxLen ++ ")"))
  else colType

/-- One emitted column definition: the backtick-quoted header, the
resolved type, and the ` INDEX` directive appended exactly when the
header ends with `_id`. -/
def columnDef (header : String) (st : ColState) : String :=
  let colType := renderColType st
  let colType2 := if pyEndswith header "_id" then colType ++ " INDEX" else colType
  ("`" ++ header ++ "` ") ++ colType2

/-- Source `infer_column_types(file_path)`: scan the sampled rows and emit
the comma-separated column-definition clause, or propagate the uncaught
`IndexError`. -/
def infer_column_types (f : CsvFile) : Except Unit String :=
  match processRows (List.replicate f.headers.length ⟨none, 0⟩) f.rows 0 with
  | .error e => .error e
  | .ok sts => .ok (String.intercalate ", " (List.zipWith columnDef f.headers sts))

/-! ### Shared helper lemmas -/

/-- The empty string parses as neither an integer nor anything else. -/
theorem pyInt_empty : pyInt "" = none := rfl

/-- A value that parses as an integer is non-empty. -/
theorem ne_empty_of_pyInt {v : String} {n : Int} (h : pyInt v = some n) : v ≠ "" := by
  intro hv
  rw [hv, pyInt_empty] at h
  exact Option.noConfusion h

/-- A value accepted by `float` is non-empty. -/
theorem ne_empty_of_pyFloat {v : String} (h : pyFloat v = true) : v ≠ "" := by
  intro hv
  rw [hv] at h
  exact absurd h (by decide)

/-- A textual (non-numeric, non-date) value, as classified by the source:
non-empty, rejected by `int` and `float`, and matching no date format. -/
def isTextValue (v : String) : Bool :=
  !(v == "") && (pyInt v).isNone && !(pyFloat v) && !(is_datetime v)

/-- Unpack `isTextValue` into its four component facts. -/
theorem isTextValue_spec {v : String} (h : isTextValue v = true) :
    v ≠ "" ∧ pyInt v = none ∧ pyFloat v = false ∧ is_datetime v = false := by
  simp only [isTextValue, Bool.and_eq_true, Bool.not_eq_true', beq_eq_false_iff_ne, ne_eq,
    Option.isNone_iff_eq_none] at h
  exact ⟨h.1.1.1, h.1.1.2, h.1.2, h.2⟩

/-! ### Claim C1 -/

/-- C1 counterexample: a column that has become textual (`VARCHAR` after
the value `abc`) is relabelled to the numeric label `DOUBLE` by a later
value `1.5`, which parses as a number (a float); the label does revert
from textual to numeric. -/
theorem textual_reverts_to_double_cex :
    infer_column_types ⟨["c"], [["abc"]]⟩ = .ok "`c` VARCHAR(3)"
    ∧ infer_column_types ⟨["c"], [["abc"], ["1.5"]]⟩ = .ok "`c` DOUBLE"
    ∧ pyInt "1.5" = none ∧ pyFloat "1.5" = true :=
  ⟨rfl, rfl, rfl, rfl⟩

/-- C1 amended: once a column's label is textual (`VARCHAR`/`TEXT`) or a
date label (`DATE`/`DATETIME`), no later value that parses as an integer
changes it (the integer branch excludes those labels); but a later value
that parses as a float and not as an integer unconditionally resets the
label to `DOUBLE`, and a later date-formatted value unconditionally
resets it to `DATETIME`/`DATE`, so the label can revert to numeric or
date. -/
theorem numeric_no_overwrite_amended :
    (∀ (st : ColState) (v : String) (n : Int),
      (st.dtype = some TypeLabel.VARCHAR ∨ st.dtype = some TypeLabel.TEXT ∨
        st.dtype = some TypeLabel.DATE ∨ st.dtype = some TypeLabel.DATETIME) →
      pyInt v = some n → processValue st v = st)
    ∧ (∀ (st : ColState) (v : String), pyInt v = none → pyFloat v = true →
        processValue st v = { st with dtype := some TypeLabel.DOUBLE })
    ∧ (∀ (st : ColState) (v : String), v ≠ "" → pyInt v = none → pyFloat v = false →
        is_datetime v = true →
        processValue st v
          = { st with dtype := some (if pySpaceIn v then TypeLabel.DATETIME else TypeLabel.DATE) }) := by
  refine ⟨?_, ?_, ?_⟩
  · intro st v n hd hint
    have hv : v ≠ "" := ne_empty_of_pyInt hint
    have hex : numericExcluded st.dtype = true := by
      rcases hd with h | h | h | h <;> simp [numericExcluded, h]
    unfold processValue
    rw [if_neg hv, hint]
    simp only [hex, if_true]
  · intro st v hint hfl
    have hv : v ≠ "" := ne_empty_of_pyFloat hfl
    unfold processValue
    rw [if_neg hv, hint]
    simp only [hfl, if_true]
  · intro st v hv hint hfl hdt
    unfold processValue
    rw [if_neg hv, hint]
    simp only [hfl, hdt, if_true, Bool.false_eq_true, if_false]

/-- C1 witness: a `TEXT` column is untouched by the integer `7`, and a
`TEXT` column is relabelled `DOUBLE` by the float `2.5`. -/
theorem numeric_no_overwrite_amended_witness :
    processValue ⟨some TypeLabel.TEXT, 7⟩ "7" = ⟨some TypeLabel.TEXT, 7⟩
    ∧ processValue ⟨some TypeLabel.TEXT, 7⟩ "2.5" = ⟨some TypeLabel.DOUBLE, 7⟩ :=
  ⟨numeric_no_overwrite_amended.1 ⟨some TypeLabel.TEXT, 7⟩ "7" 7
      (Or.inr (Or.inl rfl)) rfl,
    numeric_no_overwrite_amended.2.1 ⟨some TypeLabel.TEXT, 7⟩ "2.5" rfl rfl⟩

/-! ### Claim C2 -/

/-- C2 counterexample: `-100` parses as an integer of magnitude `100 ≥ 10`
yet labels a fresh column `TINYINT`, because the source compares the
signed value (`int_val < 10`), not the absolute value. -/
theorem tinyint_negative_cex :
    pyInt "-100" = some (-100)
    ∧ (-100 : Int).natAbs = 100
    ∧ processValue ⟨none, 0⟩ "-100" = ⟨some TypeLabel.TINYINT, 0⟩
    ∧ infer_column_types ⟨["c"], [["-100"]]⟩ = .ok "`c` TINYINT" :=
  ⟨rfl, rfl, rfl, rfl⟩

/-- C2 amended: for a value parsing as integer `n`, when the current label
is not in the exclusion list the label becomes `TINYINT` exactly when the
signed value `n` is below `10` and `INT` otherwise; negative integers of
any magnitude therefore yield `TINYINT`. -/
theorem int_label_signed_threshold (st : ColState) (v : String) (n : Int)
    (hint : pyInt v = some n) (hex : numericExcluded st.dtype = false) :
    processValue st v
      = { st with dtype := some (if n < 10 then TypeLabel.TINYINT else TypeLabel.INT) } := by
  have hv : v ≠ "" := ne_empty_of_pyInt hint
  unfold processValue
  rw [if_neg hv, hint]
  simp only [hex, Bool.false_eq_true, if_false]

/-- C2 witness: the integer `12` (signed value not below 10) labels a
fresh column `INT`. -/
theorem int_label_signed_threshold_witness :
    processValue ⟨none, 0⟩ "12" = ⟨some TypeLabel.INT, 0⟩ :=
  int_label_signed_threshold ⟨none, 0⟩ "12" 12 rfl rfl

/-! ### Claim C4 -/

/-- The scenario file of the spec: header `id,name,score,joined` with the
two sample rows. -/
def scenarioFile : CsvFile :=
  ⟨["id", "name", "score", "joined"],
    [["1", "Alice", "9.5", "2020-01-01"],
     ["2", "Bob", "10", "2020-02-01 10:00:00"]]⟩

/-- C4 counterexample: on the scenario file the `id` column is rendered
plain `` `id` TINYINT `` with no index directive, because the header `id`
does not end with the three-character suffix `_id`; the claimed index
directive on `id` is absent. -/
theorem scenario_id_no_index_cex :
    infer_column_types scenarioFile
      = .ok "`id` TINYINT, `name` VARCHAR(5), `score` DOUBLE, `joined` DATETIME"
    ∧ pyEndswith "id" "_id" = false
    ∧ pyEndswith "`id` TINYINT" " INDEX" = false :=
  ⟨rfl, by decide, by decide⟩

/-- C4 amended: the scenario infers `id` as `TINYINT` without an index
directive (its header does not end in `_id`), `name` as `VARCHAR(5)`,
`score` as `DOUBLE` and `joined` as `DATETIME`. -/
theorem scenario_inference_amended :
    infer_column_types scenarioFile
      = .ok "`id` TINYINT, `name` VARCHAR(5), `score` DOUBLE, `joined` DATETIME"
    ∧ columnDef "id" ⟨some TypeLabel.TINYINT, 0⟩ = "`id` TINYINT" :=
  ⟨rfl, rfl⟩

/-! ### Claim C5 -/

/-- C5: text-length resolution.  The running max length never decreases;
any textual value of length at least 200 forces the `TEXT` label whatever
the current label; `TEXT` survives every later textual value; a textual
value keeping the max below 200 yields `VARCHAR` with the updated max; an
unset label renders as `VARCHAR(255)`; a `VARCHAR` label renders with its
observed max length in parentheses, in particular `VARCHAR(199)` at max
length 199. -/
theorem text_length_resolution :
    (∀ (st : ColState) (v : String), st.maxLen ≤ (processValue st v).maxLen)
    ∧ (∀ (st : ColState) (v : String), isTextValue v = true → 200 ≤ v.length →
        (processValue st v).dtype = some TypeLabel.TEXT)
    ∧ (∀ (st : ColState) (v : String), isTextValue v = true →
        st.dtype = some TypeLabel.TEXT → (processValue st v).dtype = some TypeLabel.TEXT)
    ∧ (∀ (st : ColState) (v : String), isTextValue v = true →
        st.dtype ≠ some TypeLabel.TEXT → max st.maxLen v.length < 200 →
        processValue st v = ⟨some TypeLabel.VARCHAR, max st.maxLen v.length⟩)
    ∧ (∀ n : Nat, renderColType ⟨none, n⟩ = "VARCHAR(255)")
    ∧ renderColType ⟨some TypeLabel.VARCHAR, 199⟩ = "VARCHAR(199)"
    ∧ (∀ n : Nat, renderColType ⟨some TypeLabel.VARCHAR, n⟩ = "VARCHAR(" ++ toString n ++ ")") := by
  refine ⟨?_, ?_, ?_, ?_, ?_, rfl, ?_⟩
  · intro st v
    unfold processValue
    split
    · exact le_refl _
    · split
      · split
        · exact le_refl _
        · exact le_refl _
      · split
        · exact le_refl _
        · split
          · exact le_refl _
          · exact le_max_left _ _
  · intro st v htv h200
    obtain ⟨hne, hint, hfl, hdt⟩ := isTextValue_spec htv
    unfold processValue
    rw [if_neg hne, hint]
    simp only [hfl, hdt, Bool.false_eq_true, if_false]
    have hml : ¬ max st.maxLen v.length < 200 := by
      have := le_max_right st.maxLen v.length
      omega
    by_cases hT : st.dtype = some TypeLabel.TEXT
    · simp [hT]
    · simp [hT, hml]
  · intro st v htv hT
    obtain ⟨hne, hint, hfl, hdt⟩ := isTextValue_spec htv
    unfold processValue
    rw [if_neg hne, hint]
    simp only [hfl, hdt, Bool.false_eq_true, if_false]
    simp [hT]
  · intro st v htv hT hml
    obtain ⟨hne, hint, hfl, hdt⟩ := isTextValue_spec htv
    unfold processValue
    rw [if_neg hne, hint]
    simp only [hfl, hdt, Bool.false_eq_true, if_false]
    simp [hT, hml]
  · intro n
    unfold renderColType
    rw [if_neg (by decide : ¬ ("VARCHAR(255)" = "VARCHAR"))]
  · intro n
    simp only [renderColType, labelStr]
    rw [if_pos trivial, ← String.append_assoc, ← String.append_assoc]
    rfl

/-- A concrete 200-character textual value. -/
def longText : String := String.mk (List.replicate 200 'a')

set_option maxRecDepth 4000 in
/-- C5 witness: the 200-character value flips a `VARCHAR` column of max
length 5 to `TEXT`, and a fresh column stays `VARCHAR(255)`. -/
theorem text_length_resolution_witness :
    (processValue ⟨some TypeLabel.VARCHAR, 5⟩ longText).dtype = some TypeLabel.TEXT
    ∧ processValue ⟨some TypeLabel.VARCHAR, 5⟩ "ab"
        = ⟨some TypeLabel.VARCHAR, 5⟩
    ∧ renderColType ⟨none, 0⟩ = "VARCHAR(255)" :=
  ⟨text_length_resolution.2.1 ⟨some TypeLabel.VARCHAR, 5⟩ longText (by decide) (by decide),
    text_length_resolution.2.2.2.1 ⟨some TypeLabel.VARCHAR, 5⟩ "ab" (by decide)
      (by decide) (by decide),
    text_length_resolution.2.2.2.2.1 0⟩

/-! ### Claim C6 -/

/-- When the right part of an append has a known last element, so does the
whole append. -/
theorem getLastQ_append_right {α : Type} (l₁ : List α) {l₂ : List α} {a : α}
    (h : l₂.getLast? = some a) : (l₁ ++ l₂).getLast? = some a := by
  have hne : l₂ ≠ [] := by
    intro he
    rw [he] at h
    exact Option.noConfusion h
  rw [List.getLast?_append_of_ne_nil _ hne]
  exact h

/-- A nonempty suffix has the same last element as the whole list. -/
theorem getLastQ_of_suffix {α : Type} {l₁ l₂ : List α} (h : l₁ <:+ l₂)
    (hne : l₁ ≠ []) : l₂.getLast? = l₁.getLast? := by
  obtain ⟨t, rfl⟩ := h
  exact List.getLast?_append_of_ne_nil t hne

/-- Every resolved type string ends in `T`, `E` or `)` — never in `X`, the
last character of the ` INDEX` directive. -/
theorem renderColType_last (st : ColState) :
    ∃ ch, (renderColType st).data.getLast? = some ch ∧ ch ≠ 'X' := by
  cases hd : st.dtype with
  | none =>
    refine ⟨')', ?_, by decide⟩
    simp only [renderColType, hd]
    rw [if_neg (by decide : ¬ ("VARCHAR(255)" = "VARCHAR"))]
    decide
  | some t =>
    cases t with
    | VARCHAR =>
      refine ⟨')', ?_, by decide⟩
      simp only [renderColType, hd, labelStr]
      rw [if_pos trivial]
      show ("VARCHAR".data ++ ("(".data ++ ((toString st.maxLen).data ++ ")".data))).getLast?
        = some ')'
      exact getLastQ_append_right _ (getLastQ_append_right _ (getLastQ_append_right _ rfl))
    | TINYINT =>
      refine ⟨'T', ?_, by decide⟩
      simp only [renderColType, hd, labelStr]
      rw [if_neg (by decide : ¬ ("TINYINT" = "VARCHAR"))]
      decide
    | INT =>
      refine ⟨'T', ?_, by decide⟩
      simp only [renderColType, hd, labelStr]
      rw [if_neg (by decide : ¬ ("INT" = "VARCHAR"))]
      decide
    | DOUBLE =>
      refine ⟨'E', ?_, by decide⟩
      simp only [renderColType, hd, labelStr]
      rw [if_neg (by decide : ¬ ("DOUBLE" = "VARCHAR"))]
      decide
    | TEXT =>
      refine ⟨'T', ?_, by decide⟩
      simp only [renderColType, hd, labelStr]
      rw [if_neg (by decide : ¬ ("TEXT" = "VARCHAR"))]
      decide
    | DATETIME =>
      refine ⟨'E', ?_, by decide⟩
      simp only [renderColType, hd, labelStr]
      rw [if_neg (by decide : ¬ ("DATETIME" = "VARCHAR"))]
      decide
    | DATE =>
      refine ⟨'E', ?_, by decide⟩
      simp only [renderColType, hd, labelStr]
      rw [if_neg (by decide : ¬ ("DATE" = "VARCHAR"))]
      decide

/-- C6: an emitted column definition ends with the ` INDEX` directive
exactly when its header name ends with the literal suffix `_id`. -/
theorem index_iff_header_id (header : String) (st : ColState) :
    pyEndswith (columnDef header st) " INDEX" = pyEndswith header "_id" := by
  obtain ⟨ch, hch, hne⟩ := renderColType_last st
  unfold columnDef
  cases h : pyEndswith header "_id" with
  | true =>
    simp only [h, if_true]
    unfold pyEndswith
    apply decide_eq_true
    show " INDEX".data <:+
      ("`" ++ header ++ "` ").data ++ ((renderColType st).data ++ " INDEX".data)
    exact (List.suffix_append _ _).trans (List.suffix_append _ _)
  | false =>
    simp only [h, Bool.false_eq_true, if_false]
    unfold pyEndswith
    apply decide_eq_false
    intro hsuf
    have h2 : (("`" ++ header ++ "` ") ++ renderColType st).data.getLast? = some ch :=
      getLastQ_append_right _ hch
    have h3 := getLastQ_of_suffix hsuf (by decide)
    rw [h2] at h3
    have : some ch = some 'X' := h3.trans (by decide)
    exact hne (Option.some.inj this)

/-! ### Claim C3 -/

/-- The row loop started at count `c ≤ 1000` reads exactly the first
`1001 - c` rows: the break condition `row_count > 1000` fires only after
a row has been processed. -/
theorem processRows_take (rows : List (List String)) (st : List ColState) (c : Nat)
    (hc : c ≤ 1000) :
    processRows st rows c = processRows st (rows.take (1001 - c)) c := by
  induction rows generalizing st c with
  | nil => rw [List.take_nil]
  | cons r rest ih =>
    have h1 : 1001 - c = (1000 - c) + 1 := by omega
    rw [h1, List.take_succ_cons]
    unfold processRows
    cases hpc : processCells st r 0 with
    | error e => rfl
    | ok st2 =>
      dsimp only
      by_cases hc2 : c + 1 > 1000
      · rw [if_pos hc2, if_pos hc2]
      · rw [if_neg hc2, if_neg hc2]
        have h2 : 1000 - c = 1001 - (c + 1) := by omega
        rw [h2]
        exact ih st2 (c + 1) (by omega)

/-- A file with 1000 empty-celled rows followed by the row `1.5`. -/
def longFile : CsvFile := ⟨["c"], List.replicate 1000 [""] ++ [["1.5"]]⟩

set_option maxRecDepth 100000 in
/-- C3: the scan does NOT stop after 1000 rows — the 1001st data row is
still examined and can change the result (here it turns an otherwise
unset column into `DOUBLE`), while the window is exactly the first 1001
rows: inference is unchanged by truncating the input to 1001 rows. -/
theorem row_1001_examined :
    infer_column_types longFile = .ok "`c` DOUBLE"
    ∧ infer_column_types ⟨longFile.headers, longFile.rows.take 1000⟩
        = .ok "`c` VARCHAR(255)"
    ∧ (∀ f : CsvFile,
        infer_column_types f = infer_column_types ⟨f.headers, f.rows.take 1001⟩) := by
  refine ⟨rfl, rfl, ?_⟩
  intro f
  unfold infer_column_types
  rw [processRows_take f.rows _ 0 (by omega)]

/-! ### Claim C10 -/

/-- A data row has more cells than there are columns and at least one of
the extra cells is non-empty — the situation in which `enumerate(row)`
reaches an index out of range of `data_types`/`max_lengths` with a value
that is not skipped by `if not value: continue`. -/
def hasOverflowCell (numCols : Nat) (r : List String) : Bool :=
  (r.drop numCols).any (fun v => !(v == ""))

/-- If some cell at an out-of-range index (relative to the state lists) is
non-empty, the cell loop raises the uncaught `IndexError`. -/
theorem processCells_error_of_overflow (cells : List String) :
    ∀ (st : List ColState) (i : Nat),
      (cells.drop (st.length - i)).any (fun v => !(v == "")) = true →
      processCells st cells i = .error () := by
  induction cells with
  | nil =>
    intro st i h
    simp at h
  | cons v rest ih =>
    intro st i h
    unfold processCells
    by_cases hv : v = ""
    · rw [if_pos hv]
      apply ih
      rcases Nat.eq_zero_or_pos (st.length - i) with h0 | hpos
      · have h0b : st.length - (i + 1) = 0 := by omega
        rw [h0, List.drop_zero, List.any_cons] at h
        rw [h0b, List.drop_zero]
        simpa [hv] using h
      · have h1 : st.length - i = (st.length - (i + 1)) + 1 := by omega
        rw [h1, List.drop_succ_cons] at h
        exact h
    · rw [if_neg hv]
      by_cases hi : i < st.length
      · rw [dif_pos hi]
        apply ih
        rw [List.length_set]
        have h1 : st.length - i = (st.length - (i + 1)) + 1 := by omega
        rw [h1, List.drop_succ_cons] at h
        exact h
      · rw [dif_neg hi]

/-- If no out-of-range cell is non-empty, the cell loop succeeds and
preserves the number of columns. -/
theorem processCells_ok_of_no_overflow (cells : List String) :
    ∀ (st : List ColState) (i : Nat),
      (cells.drop (st.length - i)).any (fun v => !(v == "")) = false →
      ∃ st2, processCells st cells i = .ok st2 ∧ st2.length = st.length := by
  induction cells with
  | nil =>
    intro st i _
    exact ⟨st, rfl, rfl⟩
  | cons v rest ih =>
    intro st i h
    unfold processCells
    by_cases hv : v = ""
    · rw [if_pos hv]
      apply ih
      rcases Nat.eq_zero_or_pos (st.length - i) with h0 | hpos
      · have h0b : st.length - (i + 1) = 0 := by omega
        rw [h0, List.drop_zero, List.any_cons, Bool.or_eq_false_iff] at h
        rw [h0b, List.drop_zero]
        exact h.2
      · have h1 : st.length - i = (st.length - (i + 1)) + 1 := by omega
        rw [h1, List.drop_succ_cons] at h
        exact h
    · rw [if_neg hv]
      by_cases hi : i < st.length
      · rw [dif_pos hi]
        have h2 : (rest.drop
            ((st.set i (processValue (st.get ⟨i, hi⟩) v)).length - (i + 1))).any
              (fun v => !(v == "")) = false := by
          rw [List.length_set]
          have h1 : st.length - i = (st.length - (i + 1)) + 1 := by omega
          rw [h1, List.drop_succ_cons] at h
          exact h
        obtain ⟨st2, hok, hl⟩ := ih _ (i + 1) h2
        exact ⟨st2, hok, by rw [hl, List.length_set]⟩
      · exfalso
        have h0 : st.length - i = 0 := by omega
        rw [h0, List.drop_zero, List.any_cons, Bool.or_eq_false_iff] at h
        have hv2 : (!(v == "")) = false := h.1
        simp only [Bool.not_eq_false', beq_iff_eq] at hv2
        exact hv hv2

/-- If some row inside the scanned window has a non-empty overflow cell,
the whole scan raises. -/
theorem processRows_error_of_overflow (rows : List (List String)) :
    ∀ (st : List ColState) (c : Nat), c ≤ 1000 →
      (rows.take (1001 - c)).any
          (fun r => (r.drop st.length).any (fun v => !(v == ""))) = true →
      processRows st rows c = .error () := by
  induction rows with
  | nil =>
    intro st c hc h
    simp at h
  | cons r rest ih =>
    intro st c hc h
    have h1 : 1001 - c = (1000 - c) + 1 := by omega
    rw [h1, List.take_succ_cons, List.any_cons] at h
    unfold processRows
    by_cases hbad : (r.drop st.length).any (fun v => !(v == "")) = true
    · rw [processCells_error_of_overflow r st 0 (by rw [Nat.sub_zero]; exact hbad)]
    · have hbadf : (r.drop st.length).any (fun v => !(v == "")) = false :=
        Bool.not_eq_true _ ▸ eq_false_of_ne_true hbad
      obtain ⟨st2, hok, hlen⟩ :=
        processCells_ok_of_no_overflow r st 0 (by rw [Nat.sub_zero]; exact hbadf)
      rw [hok]
      dsimp only
      have hrest : (rest.take (1000 - c)).any
          (fun r => (r.drop st.length).any (fun v => !(v == ""))) = true := by
        rw [hbadf, Bool.false_or] at h
        exact h
      by_cases hc2 : c + 1 > 1000
      · exfalso
        have h0 : 1000 - c = 0 := by omega
        rw [h0, List.take_zero] at hrest
        simp at hrest
      · rw [if_neg hc2]
        apply ih st2 (c + 1) (by omega)
        rw [hlen]
        have h2 : 1001 - (c + 1) = 1000 - c := by omega
        rw [h2]
        exact hrest

/-- C10: a file whose sample window contains a row with a non-empty cell
beyond the header count makes `infer_column_types` raise the uncaught
`IndexError`, so no column definitions are produced. -/
theorem extra_field_index_error (f : CsvFile)
    (h : (f.rows.take 1001).any (fun r => hasOverflowCell f.headers.length r) = true) :
    infer_column_types f = .error () := by
  unfold infer_column_types
  have he : processRows (List.replicate f.headers.length ⟨none, 0⟩) f.rows 0
      = .error () := by
    apply processRows_error_of_overflow f.rows _ 0 (by omega)
    simp only [List.length_replicate, Nat.sub_zero]
    simpa only [hasOverflowCell] using h
  rw [he]

/-- C10 witness: a one-column file whose single row carries the extra
non-empty cell `x` makes inference fail. -/
theorem extra_field_index_error_witness :
    infer_column_types ⟨["a"], [["1", "x"]]⟩ = .error () :=
  extra_field_index_error ⟨["a"], [["1", "x"]]⟩ (by decide)

/-! ### Main-script model (bulk loader control flow) -/

/-- SQL statements issued through the cursor by the main script, in
program order.  The initial `connect` is external; `loadFile i` is the
`LOAD DATA LOCAL INFILE` statement for the i-th file of the candidate
set. -/
inductive Stmt where
  | showTables
  | dropTable
  | createTable (defs : String)
  | disableKeys
  | enableKeys
  | loadFile (idx : Nat)
  | commit
deriving DecidableEq

/-- Background MySQL fact used to state claim C8: `SHOW TABLES` is
read-only; every other statement the script issues (DROP/CREATE TABLE,
ALTER TABLE ... KEYS, LOAD DATA, COMMIT) modifies schema, index state or
rows. -/
def modifiesTable : Stmt → Bool
  | .showTables => false
  | _ => true

/-- Source constant `DISABLE_KEYS = True`. -/
def DISABLE_KEYS : Bool := true

/-- The per-file import loop: issue the load statement for each file in
order; a load that raises stops the loop and propagates the error.  A
failing statement is recorded as issued (it reached the server). -/
def loadLoop (loadResult : Nat → Option Unit) : List Nat → List Stmt × Option Unit
  | [] => ([], none)
  | i :: rest =>
    match loadResult i with
    | some e => ([Stmt.loadFile i], some e)
    | none =>
      (Stmt.loadFile i :: (loadLoop loadResult rest).1, (loadLoop loadResult rest).2)

/-- Lines 124-147 of the script: optionally `DISABLE KEYS`, run the import
loop, and only on full success `ENABLE KEYS` (again optional) and commit.
A propagating load error skips both trailing steps. -/
def loadPhase (disable : Bool) (files : List Nat) (loadResult : Nat → Option Unit) :
    List Stmt × Option Unit :=
  match loadLoop loadResult files with
  | (tr, some e) => ((if disable then [Stmt.disableKeys] else []) ++ tr, some e)
  | (tr, none) =>
      ((if disable then [Stmt.disableKeys] else []) ++ tr ++
        (if disable then [Stmt.enableKeys] else []) ++ [Stmt.commit], none)

/-- Result of the table-exists prompt: proceed (with or without append),
abort via `sys.exit(1)`, or crash (`readline()` returned an empty string,
so `[0]` raises an uncaught `IndexError`). -/
inductive PromptR where
  | proceed (append : Bool)
  | abort1
  | crash
deriving DecidableEq

/-- Lines 47-54: when the table exists, read one line from stdin and look
at its first character, lowercased: `a` selects append, `y` selects
overwrite, anything else prints a message and exits with status 1. -/
def promptStep (tableExists : Bool) (line : String) : PromptR :=
  match tableExists, line.data with
  | false, _ => .proceed false
  | true, [] => .crash
  | true, c :: _ =>
    if c.toLower = 'a' then .proceed true
    else if c.toLower = 'y' then .proceed false
    else .abort1

/-- Lines 114-122: unless appending, `DROP TABLE IF EXISTS` is executed
first, then inference runs on the first file; its uncaught `IndexError`
(if any) propagates after the drop, otherwise `CREATE TABLE` is issued. -/
def createPhase (append : Bool) (f : CsvFile) : List Stmt × Option Unit :=
  if append then ([], none)
  else
    match infer_column_types f with
    | .error _ => ([Stmt.dropTable], some ())
    | .ok defs => ([Stmt.dropTable, Stmt.createTable defs], none)

/-- Process outcome distinguishing the script's exit paths. -/
inductive Outcome where
  | usageExit1
  | abortExit1
  | uncaughtError
  | completed
deriving DecidableEq

/-- External inputs of one invocation: the positional arguments
(`sys.argv[1:]`), whether `SHOW TABLES LIKE` finds the table, the line
read from stdin at the prompt, the parsed first candidate file, the size
of the candidate file set, and which load statements raise. -/
structure Env where
  args : List String
  tableExists : Bool
  stdinLine : String
  firstFile : CsvFile
  fileCount : Nat
  loadResult : Nat → Option Unit

/-- The whole script: the `len(sys.argv)` gate (argv counts the program
name, hence `+ 1`), connection and `SHOW TABLES`, the prompt, the create
phase and the load phase, producing the issued-statement trace and the
process outcome. -/
def runMain (env : Env) : List Stmt × Outcome :=
  if env.args.length + 1 = 5 ∨ env.args.length + 1 = 4 then
    match promptStep env.tableExists env.stdinLine with
    | .crash => ([Stmt.showTables], .uncaughtError)
    | .abort1 => ([Stmt.showTables], .abortExit1)
    | .proceed app =>
      match createPhase app env.firstFile with
      | (tr1, some _) => (Stmt.showTables :: tr1, .uncaughtError)
      | (tr1, none) =>
        match loadPhase DISABLE_KEYS (List.range env.fileCount) env.loadResult with
        | (tr2, some _) => (Stmt.showTables :: (tr1 ++ tr2), .uncaughtError)
        | (tr2, none) => (Stmt.showTables :: (tr1 ++ tr2), .completed)
  else ([], .usageExit1)

/-! ### Claim C7 -/

/-- When every load succeeds, the import loop issues one load statement
per file in order and reports success. -/
theorem loadLoop_all_ok (lr : Nat → Option Unit) :
    ∀ files, (∀ i ∈ files, lr i = none) →
      loadLoop lr files = (files.map Stmt.loadFile, none) := by
  intro files
  induction files with
  | nil => intro _; rfl
  | cons i rest ih =>
    intro h
    have hi : lr i = none := h i (List.mem_cons_self i rest)
    unfold loadLoop
    rw [hi]
    dsimp only
    rw [ih (fun j hj => h j (List.mem_cons_of_mem i hj))]
    rfl

/-- When the loads before `k` succeed and the load of `k` raises, the loop
issues exactly the loads up to and including `k` and propagates the
error. -/
theorem loadLoop_first_fail (lr : Nat → Option Unit) :
    ∀ (l₁ : List Nat) (k : Nat) (l₂ : List Nat) (e : Unit),
      (∀ i ∈ l₁, lr i = none) → lr k = some e →
      loadLoop lr (l₁ ++ k :: l₂)
        = (l₁.map Stmt.loadFile ++ [Stmt.loadFile k], some e) := by
  intro l₁
  induction l₁ with
  | nil =>
    intro k l₂ e _ hk
    rw [List.nil_append]
    unfold loadLoop
    rw [hk]
    rfl
  | cons i rest ih =>
    intro k l₂ e h hk
    have hi : lr i = none := h i (List.mem_cons_self i rest)
    rw [List.cons_append]
    unfold loadLoop
    rw [hi]
    dsimp only
    rw [ih k l₂ e (fun j hj => h j (List.mem_cons_of_mem i hj)) hk]
    rfl

/-- If some file in the candidate list fails to load, there is a first
failing file, preceded only by successful ones. -/
theorem exists_first_fail (lr : Nat → Option Unit) :
    ∀ files, ¬ (∀ i ∈ files, lr i = none) →
      ∃ l₁ k l₂ e, files = l₁ ++ k :: l₂ ∧ (∀ i ∈ l₁, lr i = none) ∧
        lr k = some e := by
  intro files
  induction files with
  | nil => intro h; exact absurd (by simp) h
  | cons i rest ih =>
    intro h
    cases hlr : lr i with
    | some e => exact ⟨[], i, rest, e, rfl, by simp, hlr⟩
    | none =>
      have h2 : ¬ ∀ j ∈ rest, lr j = none := by
        intro hall
        apply h
        intro j hj
        rcases List.mem_cons.mp hj with rfl | hj2
        · exact hlr
        · exact hall j hj2
      obtain ⟨l₁, k, l₂, e, heq, hok, hk⟩ := ih h2
      refine ⟨i :: l₁, k, l₂, e, by rw [heq, List.cons_append], ?_, hk⟩
      intro j hj
      rcases List.mem_cons.mp hj with rfl | hj2
      · exact hlr
      · exact hok j hj2

/-- C7: with the index-disable optimization on, `ENABLE KEYS` is issued
exactly when every file loads successfully, in which case the trace is
disable, all loads in order, enable, commit; when some load raises, the
trace stops at the first failing load, the error propagates, and the keys
are left disabled (no enable statement, no commit, no further loads). -/
theorem enable_keys_after_all_loads (files : List Nat) (lr : Nat → Option Unit) :
    (Stmt.enableKeys ∈ (loadPhase true files lr).1 ↔ ∀ i ∈ files, lr i = none)
    ∧ ((∀ i ∈ files, lr i = none) →
        loadPhase true files lr
          = (Stmt.disableKeys ::
              (files.map Stmt.loadFile ++ [Stmt.enableKeys, Stmt.commit]), none))
    ∧ (∀ (l₁ : List Nat) (k : Nat) (l₂ : List Nat) (e : Unit),
        files = l₁ ++ k :: l₂ → (∀ i ∈ l₁, lr i = none) → lr k = some e →
        loadPhase true files lr
          = (Stmt.disableKeys :: (l₁.map Stmt.loadFile ++ [Stmt.loadFile k]),
              some e)) := by
  have hok : (∀ i ∈ files, lr i = none) →
      loadPhase true files lr
        = (Stmt.disableKeys ::
            (files.map Stmt.loadFile ++ [Stmt.enableKeys, Stmt.commit]), none) := by
    intro h
    unfold loadPhase
    rw [loadLoop_all_ok lr files h]
    simp
  have hfail : ∀ (l₁ : List Nat) (k : Nat) (l₂ : List Nat) (e : Unit),
      files = l₁ ++ k :: l₂ → (∀ i ∈ l₁, lr i = none) → lr k = some e →
      loadPhase true files lr
        = (Stmt.disableKeys :: (l₁.map Stmt.loadFile ++ [Stmt.loadFile k]),
            some e) := by
    intro l₁ k l₂ e heq h1 hk
    subst heq
    unfold loadPhase
    rw [loadLoop_first_fail lr l₁ k l₂ e h1 hk]
    simp
  refine ⟨⟨?_, ?_⟩, hok, hfail⟩
  · intro hmem
    by_contra hnot
    obtain ⟨l₁, k, l₂, e, heq, h1, hk⟩ := exists_first_fail lr files hnot
    rw [hfail l₁ k l₂ e heq h1 hk] at hmem
    simp at hmem
  · intro h
    rw [hok h]
    simp

/-- A load oracle whose file 1 raises and whose other files succeed. -/
def lrFailAt1 : Nat → Option Unit := fun i => if i = 1 then some () else none

/-- C7 witness: with files `[0, 1, 2]` and file 1 failing, the issued
trace is disable keys, load 0, load 1 — no enable, no commit, no load
of file 2 — and the error propagates. -/
theorem enable_keys_after_all_loads_witness :
    loadPhase true [0, 1, 2] lrFailAt1
      = ([Stmt.disableKeys, Stmt.loadFile 0, Stmt.loadFile 1], some ()) :=
  (enable_keys_after_all_loads [0, 1, 2] lrFailAt1).2.2 [0] 1 [2] ()
    rfl (by decide) rfl

/-! ### Claim C8 -/

/-- C8: when the table exists and the first character of the interactive
answer is neither `a` nor `y` (case-insensitively) — for example the
answer `n` — the process exits with status 1 having issued only the
read-only `SHOW TABLES`, so no rows or schema are modified. -/
theorem prompt_abort_no_modification (env : Env)
    (hargs : env.args.length = 3 ∨ env.args.length = 4)
    (hex : env.tableExists = true)
    (c : Char) (rest : List Char) (hline : env.stdinLine.data = c :: rest)
    (ha : c.toLower ≠ 'a') (hy : c.toLower ≠ 'y') :
    runMain env = ([Stmt.showTables], Outcome.abortExit1)
    ∧ ∀ s ∈ (runMain env).1, modifiesTable s = false := by
  have hp : promptStep env.tableExists env.stdinLine = .abort1 := by
    unfold promptStep
    rw [hex, hline]
    dsimp only
    rw [if_neg ha, if_neg hy]
  have hr : runMain env = ([Stmt.showTables], Outcome.abortExit1) := by
    unfold runMain
    rw [if_pos (by omega), hp]
  refine ⟨hr, ?_⟩
  rw [hr]
  intro s hs
  rw [List.mem_singleton.mp hs]
  rfl

/-- C8 witness: a concrete environment with an existing table and answer
`n` aborts with exit status 1 and a trace of no table-modifying
statement. -/
theorem prompt_abort_no_modification_witness :
    runMain
        { args := ["f.csv", "db", "tbl"], tableExists := true, stdinLine := "n\n",
          firstFile := ⟨["c"], []⟩, fileCount := 1, loadResult := fun _ => none }
      = ([Stmt.showTables], Outcome.abortExit1)
    ∧ ∀ s ∈ (runMain
        { args := ["f.csv", "db", "tbl"], tableExists := true, stdinLine := "n\n",
          firstFile := ⟨["c"], []⟩, fileCount := 1, loadResult := fun _ => none }).1,
        modifiesTable s = false :=
  prompt_abort_no_modification _ (Or.inl rfl) rfl 'n' ['\n'] rfl
    (by decide) (by decide)

/-! ### Claim C9 -/

/-- C9: the script proceeds exactly on 3 or 4 positional arguments
(`len(sys.argv)` of 4 or 5); any other count makes it exit with status 1
reporting usage, before issuing any statement and before any other
work. -/
theorem arg_count_gate (env : Env) :
    (¬ (env.args.length = 3 ∨ env.args.length = 4) →
      runMain env = ([], Outcome.usageExit1))
    ∧ ((env.args.length = 3 ∨ env.args.length = 4) →
      (runMain env).2 ≠ Outcome.usageExit1) := by
  constructor
  · intro h
    unfold runMain
    rw [if_neg (by omega)]
  · intro h
    unfold runMain
    rw [if_pos (by omega)]
    cases promptStep env.tableExists env.stdinLine with
    | crash => simp
    | abort1 => simp
    | proceed app =>
      dsimp only
      rcases hcp : createPhase app env.firstFile with ⟨tr1, r1⟩
      cases r1 with
      | some e => simp
      | none =>
        dsimp only
        rcases hlp : loadPhase DISABLE_KEYS (List.range env.fileCount) env.loadResult
          with ⟨tr2, r2⟩
        cases r2 with
        | some e => simp
        | none => simp

/-- C9 witness: with 2 positional arguments the script exits with the
usage message and status 1, issuing nothing. -/
theorem arg_count_gate_witness :
    runMain
        { args := ["f.csv", "db"], tableExists := false, stdinLine := "",
          firstFile := ⟨["c"], []⟩, fileCount := 1, loadResult := fun _ => none }
      = ([], Outcome.usageExit1) :=
  (arg_count_gate _).1 (by decide)
